import Mathlib

/-!
# Istio node attestor: verification of `main.go`

A shallow embedding of the Istio attestor plugin (`src/main.go`) and proofs
of properties of its token verifier (`validateJWT`), of its attestation
handler (`Attest`) and of its configuration (`Configure`, `newKubeClient`,
`getConfig`, `getKubeClient`).

Conventions of the embedding:

* a Go `string` is a Lean `String`; the library functions used by the
  plugin (`strings.Split`, `strings.TrimPrefix`, `fmt.Sprintf`) are embedded
  on the character list of the string. Separator and prefix are ASCII, so on
  well-formed UTF-8 text the byte-wise Go functions and the character-wise
  embeddings agree;
* a Go `error` is a value of `Error`: either an error of the `errs` package
  (class name and text) or an error made by an external collaborator
  (dynamic type name and message);
* the external collaborators (token review backend, JSON decoder, the
  stream, `strconv.Quote`) are fields of `Env`; every theorem quantifies
  over them;
* a function that calls a collaborator returns a `Run`: the list of calls it
  made, in order, and the value it returned. The mutex of the plugin is not
  part of the sequential embedding;
* `Attest` ends in an `Outcome`: it returns its error, or it panics when the
  received request carries no attestation data (a nil pointer in Go);
* the collaborators of `Configure` (`hcl.Decode`, the two configuration
  sources, `kubernetes.NewForConfig`) are fields of `ConfigEnv`; `Configure`
  returns the plugin state it leaves next to its result.
-/

namespace IstioAttestor

/-! ## Go library functions -/

/-- Loop of `strings.Split` for a one-character separator: `cur` holds the
characters of the current segment in reverse order. -/
def genSplit (sep : Char) : List Char → List Char → List String
  | [], cur => [String.mk cur.reverse]
  | c :: rest, cur =>
    if c = sep then String.mk cur.reverse :: genSplit sep rest []
    else genSplit sep rest (c :: cur)

/-- Embedding of `strings.Split(s, sep)` for a separator `sep` of one
character: the segments of `s` between the occurrences of `sep`, in order.
The result is never empty; `Split "" sep` is the list holding one empty
string. -/
def Split (s : String) (sep : Char) : List String :=
  genSplit sep s.data []

/-- Embedding of `strings.HasPrefix(s, pre)`. -/
def HasPrefix (s pre : String) : Bool :=
  pre.data.isPrefixOf s.data

/-- Embedding of `strings.TrimPrefix(s, pre)`: `s` without the leading `pre`
when `s` starts with `pre`, and `s` itself otherwise. -/
def TrimPrefix (s pre : String) : String :=
  if HasPrefix s pre then String.mk (s.data.drop pre.data.length) else s

/-- Name of an error class of the `errs` package (`errs.Class`). -/
structure Class where
  name : String
  deriving DecidableEq, Repr

/-- A Go `error` value. `classed cls text` is an `*errs.errorT` of class `cls`
wrapping an error whose message is `text`; `foreign goType msg` is an error
made outside the plugin, with its dynamic type name and its message. -/
inductive Error where
  | classed (cls : Class) (text : String)
  | foreign (goType : String) (msg : String)
  deriving DecidableEq, Repr

/-- The message of an error, the result of its method `Error()`. For an
error of the `errs` package it is the class name, followed by `": "` and the
text when the text is not empty (the `Format` method of `errorT`); a class
without a name prints the text alone. -/
def Error.message : Error → String
  | .classed cls text =>
    if cls.name = "" then text
    else if text = "" then cls.name
    else cls.name ++ ": " ++ text
  | .foreign _ msg => msg

/-- Dynamic type name of an error, as `reflect.TypeOf` prints it. -/
def Error.goType : Error → String
  | .classed _ _ => "*errs.errorT"
  | .foreign t _ => t

/-- An operand of `fmt.Sprintf`: its dynamic type name and its text under
the verbs `%v` and `%s`. -/
structure Arg where
  goType : String
  text : String
  deriving DecidableEq, Repr

/-- A `string` operand. -/
def Arg.str (s : String) : Arg := ⟨"string", s⟩

/-- An `error` operand; `%v` prints its message. -/
def Arg.err (e : Error) : Arg := ⟨e.goType, e.message⟩

/-- The `%!(EXTRA type=value, ...)` suffix that `fmt` appends for operands
the format did not use. -/
def extraArgs : List Arg → String
  | [] => ""
  | args => "%!(EXTRA " ++ ", ".intercalate (args.map fun a => a.goType ++ "=" ++ a.text) ++ ")"

/-- One verb of `fmt` applied to an operand: `%s` and `%v` print the text,
`%q` prints the quoted text, every other verb is printed as a bad verb. -/
def printArg (Quote : String → String) (verb : Char) (a : Arg) : String :=
  if verb = 's' ∨ verb = 'v' then a.text
  else if verb = 'q' then Quote a.text
  else "%!" ++ verb.toString ++ "(" ++ a.goType ++ "=" ++ a.text ++ ")"

/-- Loop of `fmt.Sprintf` over the characters of the format. The embedding
covers formats made of plain text, `%%` and one-letter verbs without flags
or width, which is what the plugin uses. -/
def doPrintf (Quote : String → String) : List Char → List Arg → String
  | [], args => extraArgs args
  | c :: rest, args =>
    if c ≠ '%' then c.toString ++ doPrintf Quote rest args
    else
      match rest with
      | [] => "%!(NOVERB)" ++ extraArgs args
      | verb :: rest1 =>
        if verb = '%' then "%" ++ doPrintf Quote rest1 args
        else
          match args with
          | [] => "%!" ++ verb.toString ++ "(MISSING)" ++ doPrintf Quote rest1 []
          | a :: args1 => printArg Quote verb a ++ doPrintf Quote rest1 args1

/-- Embedding of `fmt.Sprintf(format, args...)`. -/
def Sprintf (Quote : String → String) (format : String) (args : List Arg) : String :=
  doPrintf Quote format.data args

/-- Embedding of `Class.New(format, args...)` of the `errs` package: a new
error of the class whose text is the formatted message. -/
def Class.New (c : Class) (Quote : String → String) (format : String) (args : List Arg) : Error :=
  .classed c (Sprintf Quote format args)

/-- Embedding of `Class.Wrap(err)` for a non-nil `err`: an error that is
already of the class is returned as it is, any other error becomes the text
of a new error of the class. Classes are compared by name. -/
def Class.Wrap (c : Class) (err : Error) : Error :=
  match err with
  | .classed c1 text => if c1 = c then .classed c1 text else .classed c (Error.classed c1 text).message
  | .foreign _ msg => .classed c msg

/-! ## Constants and data model of `main.go` -/

def pluginName : String := "istio"

def spiffeIdTemplate : String := "spiffe://%s/ns/%s/sa/%s"

def pluginErr : Class := ⟨"istio"⟩

/-- Kubernetes `authentication/v1.UserInfo`, the fields the plugin reads. -/
structure UserInfo where
  Username : String
  Groups : List String
  deriving DecidableEq, Repr

/-- Kubernetes `authentication/v1.TokenReviewStatus`. -/
structure TokenReviewStatus where
  Authenticated : Bool
  User : UserInfo
  Error : String
  deriving DecidableEq, Repr

/-- Kubernetes `authentication/v1.TokenReviewSpec`. -/
structure TokenReviewSpec where
  Token : String
  deriving DecidableEq, Repr

/-- Kubernetes `authentication/v1.TokenReview`. -/
structure TokenReview where
  Spec : TokenReviewSpec
  Status : TokenReviewStatus
  deriving DecidableEq, Repr

/-- The zero value of `TokenReviewStatus`. -/
def TokenReviewStatus.zero : TokenReviewStatus :=
  { Authenticated := false, User := { Username := "", Groups := [] }, Error := "" }

/-- The plugin state: the configured Kubernetes client, `none` for `nil`. -/
structure IstioAttestorPlugin (Client : Type) where
  kubeClient : Option Client

/-- Configuration of the plugin (`k8s_config_path`). -/
structure IstioAttestorConfig where
  ConfigPath : String
  deriving DecidableEq, Repr

/-- Data sent by the Istio node agent. -/
structure istioAttestedData where
  Token : String
  TrustDomain : String
  deriving DecidableEq, Repr

/-- Namespace and service account from token verification. -/
structure JWTClaims where
  Namespace : String
  ServiceAccount : String
  deriving DecidableEq, Repr

/-- The field `AttestationData` of an attest request: the type tag and the
payload bytes. -/
structure AttestationData where
  Type_ : String
  Data : List UInt8
  deriving DecidableEq, Repr

/-- Message received from the stream (`nodeattestor.AttestRequest`). The
field is a pointer in Go; `none` is the nil pointer. -/
structure AttestRequest where
  AttestationData : Option AttestationData
  deriving DecidableEq, Repr

/-- Message sent on the stream (`nodeattestor.AttestResponse`). -/
structure AttestResponse where
  Valid : Bool
  BaseSPIFFEID : String
  deriving DecidableEq, Repr

/-- The external collaborators of the plugin. `Create` is the token review
call on a client, `Unmarshal` is `json.Unmarshal` into `istioAttestedData`,
`Recv` and `Send` are the two operations of the stream (`Send` returns
`none` for a nil error), `Quote` is `strconv.Quote`, used by the verb `%q`. -/
structure Env (Client : Type) where
  Create : Client → TokenReview → Except Error TokenReview
  Unmarshal : List UInt8 → Except Error istioAttestedData
  Recv : Except Error AttestRequest
  Send : AttestResponse → Option Error
  Quote : String → String

/-- A call made to an external collaborator. -/
inductive Call (Client : Type) where
  | recv
  | unmarshal (data : List UInt8)
  | create (client : Client) (req : TokenReview)
  | send (resp : AttestResponse)
  deriving DecidableEq

/-- How a call of `Attest` ends: it returns its error (`none` for nil), or
it panics on a nil pointer. -/
inductive Outcome where
  | returned (err : Option Error)
  | panicked
  deriving DecidableEq, Repr

/-- Outcome of running a function of the plugin: the calls it made to the
collaborators, in order, and the value it returned. -/
structure Run (Client : Type) (α : Type) where
  calls : List (Call Client)
  ret : α
  deriving DecidableEq

deriving instance DecidableEq for Except

/-! ## Functions of `main.go` -/

/-- Embedding of `New`: a plugin without a client. -/
def New {Client : Type} : IstioAttestorPlugin Client :=
  { kubeClient := none }

/-- Embedding of `getKubeClient`: the configured client, or an error when
none is configured. -/
def getKubeClient {Client : Type} (Quote : String → String) (i : IstioAttestorPlugin Client) :
    Except Error Client :=
  match i.kubeClient with
  | none => .error (pluginErr.New Quote "no Kubernetes client is configured" [])
  | some kubeClient => .ok kubeClient

/-- The loop of `validateJWT` over the groups of the user: the flag becomes
true at the first group equal to `system:serviceaccounts`, where the loop
stops. -/
def groupLoop : List String → Bool → Bool
  | [], inServiceAccountGroup => inServiceAccountGroup
  | group :: rest, inServiceAccountGroup =>
    if group = "system:serviceaccounts" then true
    else groupLoop rest inServiceAccountGroup

/-- The part of `validateJWT` after the token review call returned without
error: the checks on the review status and the parse of the username. -/
def checkReview (Quote : String → String) (tokenReview : TokenReview) : Except Error JWTClaims :=
  if tokenReview.Status.Error ≠ "" then
    .error (pluginErr.New Quote "service account authentication status error: %v"
      [Arg.str tokenReview.Status.Error])
  else if ¬ tokenReview.Status.Authenticated then
    .error (pluginErr.New Quote "token is not authenticated" [])
  else
    let inServiceAccountGroup := groupLoop tokenReview.Status.User.Groups false
    if ¬ inServiceAccountGroup then
      .error (pluginErr.New Quote "the token is not a service account" [])
    else
      let subStrings := Split tokenReview.Status.User.Username ':'
      if subStrings.length ≠ 4 then
        .error (pluginErr.New Quote "token review returned an invalid username field" [])
      else
        .ok { Namespace := subStrings.getD 2 "", ServiceAccount := subStrings.getD 3 "" }

/-- Embedding of `validateJWT`: validate the token with the token review
call of the configured client. -/
def validateJWT {Client : Type} (env : Env Client) (i : IstioAttestorPlugin Client)
    (jwt : String) : Run Client (Except Error JWTClaims) :=
  let reviewReq : TokenReview := { Spec := { Token := jwt }, Status := TokenReviewStatus.zero }
  match getKubeClient env.Quote i with
  | .error err => ⟨[], .error err⟩
  | .ok kubeClient =>
    match env.Create kubeClient reviewReq with
    | .error err =>
      ⟨[.create kubeClient reviewReq],
        .error (pluginErr.New env.Quote "could not get a token review response: %v" [Arg.err err])⟩
    | .ok tokenReview => ⟨[.create kubeClient reviewReq], checkReview env.Quote tokenReview⟩

/-- Embedding of `Attest`: one receive, the type check, the decoding of the
payload, the token validation and one send. Reading the type of a request
without attestation data dereferences a nil pointer. -/
def Attest {Client : Type} (env : Env Client) (i : IstioAttestorPlugin Client) :
    Run Client Outcome :=
  match env.Recv with
  | .error err => ⟨[.recv], .returned (some (pluginErr.Wrap err))⟩
  | .ok req =>
    match req.AttestationData with
    | none => ⟨[.recv], .panicked⟩
    | some attestationData =>
      if attestationData.Type_ ≠ pluginName then
        ⟨[.recv], .returned (some (pluginErr.New env.Quote "unexpected attestation data type %q"
          [Arg.str attestationData.Type_]))⟩
      else
        match env.Unmarshal attestationData.Data with
        | .error err =>
          ⟨[.recv, .unmarshal attestationData.Data],
            .returned (some (pluginErr.New env.Quote
              "error parsing message from attestation data" [Arg.err err]))⟩
        | .ok attestedData =>
          let token := TrimPrefix attestedData.Token "Bearer "
          let r := validateJWT env i token
          match r.ret with
          | .error err =>
            ⟨[.recv, .unmarshal attestationData.Data] ++ r.calls,
              .returned (some (pluginErr.New env.Quote
                "provided token from request is not valid: " [Arg.err err]))⟩
          | .ok claim =>
            let resp : AttestResponse :=
              { Valid := true
                BaseSPIFFEID := Sprintf env.Quote spiffeIdTemplate
                  [Arg.str attestedData.TrustDomain, Arg.str claim.Namespace,
                   Arg.str claim.ServiceAccount] }
            ⟨[.recv, .unmarshal attestationData.Data] ++ r.calls ++ [.send resp],
              .returned (env.Send resp)⟩

/-- The messages sent on the stream among a list of calls, in order. -/
def sentMessages {Client : Type} : List (Call Client) → List AttestResponse
  | [] => []
  | .send resp :: rest => resp :: sentMessages rest
  | .recv :: rest => sentMessages rest
  | .unmarshal _ :: rest => sentMessages rest
  | .create _ _ :: rest => sentMessages rest

/-- The tokens submitted to the token review among a list of calls, in
order. -/
def reviewedTokens {Client : Type} : List (Call Client) → List String
  | [] => []
  | .create _ req :: rest => req.Spec.Token :: reviewedTokens rest
  | .recv :: rest => reviewedTokens rest
  | .unmarshal _ :: rest => reviewedTokens rest
  | .send _ :: rest => reviewedTokens rest

/-! ## Configuration of the plugin -/

/-- Request of `Configure` (`spi.ConfigureRequest`): the configuration
text. The embedding takes the request by value. -/
structure ConfigureRequest where
  Configuration : String
  deriving DecidableEq, Repr

/-- Response of `Configure` (`spi.ConfigureResponse`). -/
structure ConfigureResponse where
  ErrorList : List String
  deriving DecidableEq, Repr

/-- The external collaborators of `Configure`. `Decode` is `hcl.Decode` into
an `IstioAttestorConfig`, `BuildConfigFromFlags` is the loader of
`clientcmd` (master URL, then path of the kubeconfig file),
`InClusterConfig` is the ambient source of `rest`, `NewForConfig` builds a
client from a configuration. -/
structure ConfigEnv (Config Client : Type) where
  Decode : String → Except Error IstioAttestorConfig
  BuildConfigFromFlags : String → String → Except Error Config
  InClusterConfig : Except Error Config
  NewForConfig : Config → Except Error Client
  Quote : String → String

/-- A call made to a collaborator of `Configure`. -/
inductive ConfigCall (Config : Type) where
  | decode (text : String)
  | buildConfigFromFlags (masterUrl : String) (kubeconfigPath : String)
  | inClusterConfig
  | newForConfig (config : Config)
  deriving DecidableEq

/-- Outcome of a function of the configuration path: the calls it made, in
order, and the value it returned. -/
structure ConfigRun (Config : Type) (α : Type) where
  calls : List (ConfigCall Config)
  ret : α
  deriving DecidableEq

/-- Embedding of `getConfig`: the configuration loaded from the path when the
path is not empty, the in-cluster configuration otherwise. -/
def getConfig {Config Client : Type} (cenv : ConfigEnv Config Client) (configPath : String) :
    ConfigRun Config (Except Error Config) :=
  if configPath ≠ "" then
    ⟨[.buildConfigFromFlags "" configPath], cenv.BuildConfigFromFlags "" configPath⟩
  else
    ⟨[.inClusterConfig], cenv.InClusterConfig⟩

/-- Embedding of `newKubeClient`: a client built from the configuration that
`getConfig` returns; an error of either step is wrapped in the plugin
class. -/
def newKubeClient {Config Client : Type} (cenv : ConfigEnv Config Client)
    (configPath : String) : ConfigRun Config (Except Error Client) :=
  let r := getConfig cenv configPath
  match r.ret with
  | .error err => ⟨r.calls, .error (pluginErr.Wrap err)⟩
  | .ok config =>
    match cenv.NewForConfig config with
    | .error err => ⟨r.calls ++ [.newForConfig config], .error (pluginErr.Wrap err)⟩
    | .ok client => ⟨r.calls ++ [.newForConfig config], .ok client⟩

/-- Outcome of `Configure`: the calls it made, the plugin state it leaves
and the value it returned. -/
structure ConfigureRun (Config Client : Type) where
  calls : List (ConfigCall Config)
  plugin : IstioAttestorPlugin Client
  ret : Except Error ConfigureResponse

/-- Embedding of `Configure`: decode the configuration, build the client,
then store it in the plugin. -/
def Configure {Config Client : Type} (cenv : ConfigEnv Config Client)
    (i : IstioAttestorPlugin Client) (req : ConfigureRequest) : ConfigureRun Config Client :=
  match cenv.Decode req.Configuration with
  | .error err =>
    ⟨[.decode req.Configuration], i,
      .error (pluginErr.New cenv.Quote "error parsing Istio Attestor configuration: %s"
        [Arg.err err])⟩
  | .ok config =>
    let r := newKubeClient cenv config.ConfigPath
    match r.ret with
    | .error err =>
      ⟨.decode req.Configuration :: r.calls, i,
        .error (pluginErr.New cenv.Quote "error creating kubeClient: %v " [Arg.err err])⟩
    | .ok kubeClient =>
      ⟨.decode req.Configuration :: r.calls, { i with kubeClient := some kubeClient },
        .ok { ErrorList := [] }⟩

/-- A sequence of `Configure` calls, each with the collaborators and the
request of its time, run one after the other; the result is the plugin state
after the last call. -/
def configureAll {Config Client : Type} :
    List (ConfigEnv Config Client × ConfigureRequest) → IstioAttestorPlugin Client →
      IstioAttestorPlugin Client
  | [], i => i
  | (cenv, req) :: rest, i => configureAll rest (Configure cenv i req).plugin

/-- The rejection paths of `validateJWT`. -/
inductive Rejection where
  | notConfigured
  | callFailed
  | statusError
  | notAuthenticated
  | notServiceAccount
  | invalidUsername
  deriving DecidableEq, Repr

/-- The rejection path a run of `validateJWT` takes, following its checks in
order; `none` when the run returns claims. -/
def rejection {Client : Type} (env : Env Client) (i : IstioAttestorPlugin Client)
    (jwt : String) : Option Rejection :=
  match i.kubeClient with
  | none => some .notConfigured
  | some kubeClient =>
    match env.Create kubeClient { Spec := { Token := jwt }, Status := TokenReviewStatus.zero } with
    | .error _ => some .callFailed
    | .ok tokenReview =>
      if tokenReview.Status.Error ≠ "" then some .statusError
      else if ¬ tokenReview.Status.Authenticated then some .notAuthenticated
      else if ¬ groupLoop tokenReview.Status.User.Groups false then some .notServiceAccount
      else if (Split tokenReview.Status.User.Username ':').length ≠ 4 then some .invalidUsername
      else none

/-- The rejection path read off an error message of `validateJWT`: the
messages differ at the characters 7, 8 and 13. -/
def classify (msg : String) : Rejection :=
  let c7 := msg.data.getD 7 ' '
  let c8 := msg.data.getD 8 ' '
  let c13 := msg.data.getD 13 ' '
  if c7 = 'n' then .notConfigured
  else if c7 = 'c' then .callFailed
  else if c7 = 's' then .statusError
  else if c8 = 'h' then .notServiceAccount
  else if c13 = 'i' then .notAuthenticated
  else .invalidUsername

/-! ## Concrete collaborators, used to run the plugin on examples -/

/-- A review status of a service account token with the given username. -/
def exampleStatus (username : String) : TokenReviewStatus :=
  { Authenticated := true
    User := { Username := username, Groups := ["system:serviceaccounts", "system:authenticated"] }
    Error := "" }

/-- Collaborators with fixed answers: the backend answers every review with
`review`, the stream delivers `recv`, the decoder returns `decoded`, sending
succeeds, and quoting puts the text between double quotes. -/
def exampleEnv (review : Except Error TokenReview) (recv : Except Error AttestRequest)
    (decoded : Except Error istioAttestedData) : Env Unit :=
  { Create := fun _ _ => review
    Unmarshal := fun _ => decoded
    Recv := recv
    Send := fun _ => none
    Quote := fun s => "\"" ++ s ++ "\"" }

/-- Collaborators whose backend answers with the given status; the stream
delivers an `istio` request whose payload decodes to `data`. -/
def statusEnv (status : TokenReviewStatus) (data : istioAttestedData) : Env Unit :=
  exampleEnv (.ok { Spec := { Token := "" }, Status := status })
    (.ok { AttestationData := some { Type_ := "istio", Data := [] } }) (.ok data)

/-- A plugin configured with a client. -/
def configured : IstioAttestorPlugin Unit := { kubeClient := some () }

/-- The request `validateJWT` submits for a token. -/
def reviewRequest (jwt : String) : TokenReview :=
  { Spec := { Token := jwt }, Status := TokenReviewStatus.zero }

/-- Collaborators of `Configure` over clients named by a string: every
configuration text decodes to itself as the path, the in-cluster source
gives the configuration `in-cluster`, loading from a path gives the path,
and the client built from a configuration is named after it. -/
def exampleConfigEnv : ConfigEnv String String :=
  { Decode := fun text => .ok { ConfigPath := text }
    BuildConfigFromFlags := fun _ path => .ok path
    InClusterConfig := .ok "in-cluster"
    NewForConfig := fun config => .ok ("client of " ++ config)
    Quote := fun s => s }

/-- Collaborators of `Configure` where loading from a path fails and the
in-cluster source would succeed. -/
def failingConfigEnv : ConfigEnv String String :=
  { Decode := fun text => .ok { ConfigPath := text }
    BuildConfigFromFlags := fun _ _ => .error (.foreign "*os.PathError" "no such file")
    InClusterConfig := .ok "in-cluster"
    NewForConfig := fun config => .ok ("client of " ++ config)
    Quote := fun s => s }

/-! ## Lemmas on the library functions -/

theorem groupLoop_true (gs : List String) : groupLoop gs true = true := by
  induction gs with
  | nil => rfl
  | cons g rest ih => simp [groupLoop, ih]

/-- The loop over the groups sets the flag exactly when the tag is one of
the groups. -/
theorem groupLoop_iff_mem (gs : List String) :
    groupLoop gs false = true ↔ "system:serviceaccounts" ∈ gs := by
  induction gs with
  | nil => simp [groupLoop]
  | cons g rest ih =>
    by_cases h : g = "system:serviceaccounts"
    · simp [groupLoop, h]
    · have h1 : ¬ "system:serviceaccounts" = g := fun e => h e.symm
      simp [groupLoop, h, h1, ih]

theorem genSplit_append_sep (sep : Char) (l rest cur : List Char) (h : sep ∉ l) :
    genSplit sep (l ++ sep :: rest) cur
      = String.mk (cur.reverse ++ l) :: genSplit sep rest [] := by
  induction l generalizing cur with
  | nil => simp [genSplit]
  | cons c l ih =>
    have hc : c ≠ sep := fun e => h (by simp [e])
    have hl : sep ∉ l := fun e => h (by simp [e])
    simp [genSplit, hc, ih (c :: cur) hl]

theorem genSplit_no_sep (sep : Char) (l cur : List Char) (h : sep ∉ l) :
    genSplit sep l cur = [String.mk (cur.reverse ++ l)] := by
  induction l generalizing cur with
  | nil => simp [genSplit]
  | cons c l ih =>
    have hc : c ≠ sep := fun e => h (by simp [e])
    have hl : sep ∉ l := fun e => h (by simp [e])
    simp [genSplit, hc, ih (c :: cur) hl]

theorem genSplit_length (sep : Char) (l cur : List Char) :
    (genSplit sep l cur).length = l.count sep + 1 := by
  induction l generalizing cur with
  | nil => simp [genSplit]
  | cons c l ih =>
    by_cases hc : c = sep
    · subst hc
      simp [genSplit, ih]
    · have hc1 : (c == sep) = false := by simpa using hc
      simp [genSplit, hc, ih, List.count_cons, hc1]

/-- The number of segments is the number of separators plus one. -/
theorem Split_length (s : String) (sep : Char) :
    (Split s sep).length = s.data.count sep + 1 :=
  genSplit_length sep s.data []

/-- Four separator-free segments joined by the separator split back into
the four segments. -/
theorem Split_join4 (sep : Char) (a b c d : String)
    (ha : sep ∉ a.data) (hb : sep ∉ b.data) (hc : sep ∉ c.data) (hd : sep ∉ d.data) :
    Split (a ++ sep.toString ++ b ++ sep.toString ++ c ++ sep.toString ++ d) sep
      = [a, b, c, d] := by
  have e : (a ++ sep.toString ++ b ++ sep.toString ++ c ++ sep.toString ++ d).data
      = a.data ++ sep :: (b.data ++ sep :: (c.data ++ sep :: d.data)) := by
    simp [String.data_append, Char.toString, String.singleton]
  unfold Split
  rw [e, genSplit_append_sep sep _ _ _ ha, genSplit_append_sep sep _ _ _ hb,
    genSplit_append_sep sep _ _ _ hc, genSplit_no_sep sep _ _ hd]
  simp

theorem list_length_four {α : Type} (l : List α) (d : α) (h : l.length = 4) :
    l = [l.getD 0 d, l.getD 1 d, l.getD 2 d, l.getD 3 d] := by
  match l, h with
  | [_, _, _, _], _ => rfl

theorem HasPrefix_iff (s pre : String) : HasPrefix s pre = true ↔ pre.data <+: s.data := by
  simp [HasPrefix]

/-- Trimming a non-empty prefix a second time changes nothing exactly when
the text does not start with the prefix twice. -/
theorem TrimPrefix_twice_iff (t pre : String) (hp : pre.data ≠ []) :
    TrimPrefix (TrimPrefix t pre) pre = TrimPrefix t pre ↔ HasPrefix t (pre ++ pre) = false := by
  have hlen : 0 < pre.data.length := List.length_pos.2 hp
  by_cases h1 : HasPrefix t pre = true
  · obtain ⟨r, hr⟩ := (HasPrefix_iff t pre).1 h1
    have ht : TrimPrefix t pre = String.mk r := by
      simp [TrimPrefix, h1, ← hr]
    have h2 : HasPrefix t (pre ++ pre) = HasPrefix (String.mk r) pre := by
      rw [Bool.eq_iff_iff, HasPrefix_iff, HasPrefix_iff, String.data_append, ← hr]
      exact List.prefix_append_right_inj pre.data
    rw [ht, h2]
    by_cases h3 : HasPrefix (String.mk r) pre = true
    · obtain ⟨q, hq⟩ := (HasPrefix_iff _ pre).1 h3
      have hq1 : pre.data ++ q = r := hq
      simp only [TrimPrefix, h3, if_true]
      constructor
      · intro e
        have e1 : (List.drop pre.data.length r).length = r.length :=
          congrArg (fun x : String => x.data.length) e
        have e2 : r.length = pre.data.length + q.length := by
          rw [← hq1, List.length_append]
        rw [List.length_drop] at e1
        omega
      · intro e
        simp at e
    · have h4 : HasPrefix (String.mk r) pre = false := by simpa using h3
      simp [TrimPrefix, h4]
  · have h2 : HasPrefix t pre = false := by simpa using h1
    have h3 : HasPrefix t (pre ++ pre) = false := by
      cases h : HasPrefix t (pre ++ pre) with
      | false => rfl
      | true =>
        have hpp := (HasPrefix_iff _ _).1 h
        rw [String.data_append] at hpp
        exact absurd ((HasPrefix_iff t pre).2 ((List.prefix_append _ _).trans hpp)) h1
    simp [TrimPrefix, h2, h3]

/-! ## The token verifier -/

theorem validateJWT_ret {Client : Type} (env : Env Client) (i : IstioAttestorPlugin Client)
    (jwt : String) (kubeClient : Client) (tokenReview : TokenReview)
    (hc : i.kubeClient = some kubeClient)
    (hr : env.Create kubeClient (reviewRequest jwt) = .ok tokenReview) :
    (validateJWT env i jwt).ret = checkReview env.Quote tokenReview := by
  simp only [reviewRequest] at hr
  simp [validateJWT, getKubeClient, hc, hr]

/-- C1 (soundness, fail-closed): when `validateJWT` returns claims, a client
was configured, the token review call on it returned a review without error,
the status error of the review is empty, the review is authenticated, its
groups contain `system:serviceaccounts`, and its username splits on `:` into
exactly four segments, the third and fourth being the returned namespace and
service account. -/
theorem validateJWT_sound {Client : Type} (env : Env Client) (i : IstioAttestorPlugin Client)
    (jwt : String) (claims : JWTClaims) (h : (validateJWT env i jwt).ret = .ok claims) :
    ∃ kubeClient tokenReview,
      i.kubeClient = some kubeClient ∧
      env.Create kubeClient (reviewRequest jwt) = .ok tokenReview ∧
      tokenReview.Status.Error = "" ∧
      tokenReview.Status.Authenticated = true ∧
      "system:serviceaccounts" ∈ tokenReview.Status.User.Groups ∧
      ∃ a b, Split tokenReview.Status.User.Username ':'
        = [a, b, claims.Namespace, claims.ServiceAccount] := by
  unfold validateJWT getKubeClient at h
  cases hk : i.kubeClient with
  | none => simp [hk] at h
  | some kubeClient =>
    simp only [hk] at h
    cases hr : env.Create kubeClient
        { Spec := { Token := jwt }, Status := TokenReviewStatus.zero } with
    | error err => simp [hr] at h
    | ok tokenReview =>
      simp only [hr] at h
      refine ⟨kubeClient, tokenReview, rfl, hr, ?_⟩
      dsimp only [checkReview] at h
      split_ifs at h with h1 h2 h3 h4
      have hg : groupLoop tokenReview.Status.User.Groups false = true := by simpa using h3
      have hlen : (Split tokenReview.Status.User.Username ':').length = 4 := by simpa using h4
      have hclaims := (Except.ok.inj h).symm
      refine ⟨by simpa using h1, by simpa using h2, (groupLoop_iff_mem _).1 hg, ?_⟩
      refine ⟨(Split tokenReview.Status.User.Username ':').getD 0 "",
        (Split tokenReview.Status.User.Username ':').getD 1 "", ?_⟩
      rw [hclaims]
      exact list_length_four _ "" hlen

theorem validateJWT_sound_witness :
    (validateJWT (statusEnv (exampleStatus "system:serviceaccount:payments:checkout-sa") ⟨"", ""⟩)
        configured "tok").ret = .ok ⟨"payments", "checkout-sa"⟩ ∧
    ∃ kubeClient tokenReview,
      configured.kubeClient = some kubeClient ∧
      (statusEnv (exampleStatus "system:serviceaccount:payments:checkout-sa") ⟨"", ""⟩).Create
        kubeClient (reviewRequest "tok") = .ok tokenReview ∧
      tokenReview.Status.Error = "" ∧
      tokenReview.Status.Authenticated = true ∧
      "system:serviceaccounts" ∈ tokenReview.Status.User.Groups ∧
      ∃ a b, Split tokenReview.Status.User.Username ':' = [a, b, "payments", "checkout-sa"] :=
  ⟨by decide, validateJWT_sound _ _ "tok" ⟨"payments", "checkout-sa"⟩ (by decide)⟩

/-- C2, counterexample: a review with `Authenticated = false` and the status
error `boom` is rejected with the status error, not with the
not-authenticated error. -/
theorem validateJWT_unauthenticated_status_error :
    let status : TokenReviewStatus :=
      { Authenticated := false, User := { Username := "", Groups := [] }, Error := "boom" }
    let env := statusEnv status ⟨"", ""⟩
    status.Authenticated = false ∧
    (validateJWT env configured "tok").ret
      = .error (.classed pluginErr "service account authentication status error: boom") ∧
    (validateJWT env configured "tok").ret
      ≠ .error (pluginErr.New env.Quote "token is not authenticated" []) := by
  decide

/-- C2, amended: for every review with an empty status error in which
`Authenticated` is false, whatever its groups and username are,
`validateJWT` fails with the error `istio: token is not authenticated`. -/
theorem validateJWT_not_authenticated {Client : Type} (env : Env Client)
    (i : IstioAttestorPlugin Client) (jwt : String) (kubeClient : Client)
    (tokenReview : TokenReview) (hc : i.kubeClient = some kubeClient)
    (hr : env.Create kubeClient (reviewRequest jwt) = .ok tokenReview)
    (he : tokenReview.Status.Error = "")
    (ha : tokenReview.Status.Authenticated = false) :
    (validateJWT env i jwt).ret = .error (pluginErr.New env.Quote "token is not authenticated" []) ∧
    (pluginErr.New env.Quote "token is not authenticated" []).message
      = "istio: token is not authenticated" := by
  refine ⟨?_, rfl⟩
  rw [validateJWT_ret env i jwt kubeClient tokenReview hc hr]
  simp [checkReview, he, ha]

theorem validateJWT_not_authenticated_witness :
    let status : TokenReviewStatus :=
      { Authenticated := false
        User := { Username := "system:serviceaccount:payments:checkout-sa"
                  Groups := ["system:serviceaccounts"] }
        Error := "" }
    let env := statusEnv status ⟨"", ""⟩
    (validateJWT env configured "tok").ret
      = .error (pluginErr.New env.Quote "token is not authenticated" []) ∧
    (pluginErr.New env.Quote "token is not authenticated" []).message
      = "istio: token is not authenticated" :=
  validateJWT_not_authenticated _ configured "tok" () _ rfl rfl rfl rfl

/-- C3, counterexample: an authenticated review without the service account
group and with the status error `boom` is rejected with the status error,
not with the not-a-service-account error. -/
theorem validateJWT_no_group_status_error :
    let status : TokenReviewStatus :=
      { Authenticated := true
        User := { Username := "system:serviceaccount:payments:checkout-sa", Groups := [] }
        Error := "boom" }
    let env := statusEnv status ⟨"", ""⟩
    status.Authenticated = true ∧
    "system:serviceaccounts" ∉ status.User.Groups ∧
    (validateJWT env configured "tok").ret
      = .error (.classed pluginErr "service account authentication status error: boom") ∧
    (validateJWT env configured "tok").ret
      ≠ .error (pluginErr.New env.Quote "the token is not a service account" []) := by
  decide

/-- C3, amended: for every review with an empty status error that is
authenticated and whose groups do not contain the exact string
`system:serviceaccounts`, `validateJWT` fails with the error
`istio: the token is not a service account`, whatever the username is. -/
theorem validateJWT_not_service_account {Client : Type} (env : Env Client)
    (i : IstioAttestorPlugin Client) (jwt : String) (kubeClient : Client)
    (tokenReview : TokenReview) (hc : i.kubeClient = some kubeClient)
    (hr : env.Create kubeClient (reviewRequest jwt) = .ok tokenReview)
    (he : tokenReview.Status.Error = "")
    (ha : tokenReview.Status.Authenticated = true)
    (hg : "system:serviceaccounts" ∉ tokenReview.Status.User.Groups) :
    (validateJWT env i jwt).ret
      = .error (pluginErr.New env.Quote "the token is not a service account" []) ∧
    (pluginErr.New env.Quote "the token is not a service account" []).message
      = "istio: the token is not a service account" := by
  refine ⟨?_, rfl⟩
  rw [validateJWT_ret env i jwt kubeClient tokenReview hc hr]
  have hl : groupLoop tokenReview.Status.User.Groups false = false := by
    cases hb : groupLoop tokenReview.Status.User.Groups false with
    | false => rfl
    | true => exact absurd ((groupLoop_iff_mem _).1 hb) hg
  simp [checkReview, he, ha, hl]

theorem validateJWT_not_service_account_witness :
    let status : TokenReviewStatus :=
      { Authenticated := true
        User := { Username := "system:serviceaccount:payments:checkout-sa"
                  Groups := ["System:ServiceAccounts", "system:serviceaccounts:payments",
                    "system:serviceaccount", "x-system:serviceaccounts", "system:authenticated"] }
        Error := "" }
    let env := statusEnv status ⟨"", ""⟩
    (Split status.User.Username ':').length = 4 ∧
    (validateJWT env configured "tok").ret
      = .error (pluginErr.New env.Quote "the token is not a service account" []) ∧
    (pluginErr.New env.Quote "the token is not a service account" []).message
      = "istio: the token is not a service account" :=
  ⟨by decide, validateJWT_not_service_account _ configured "tok" () _ rfl rfl rfl rfl (by decide)⟩

/-- C4: for every review with an empty status error that is authenticated,
has the service account group and whose username does not split on `:` into
exactly four segments, `validateJWT` fails with the error
`istio: token review returned an invalid username field`; it returns no
claims. -/
theorem validateJWT_invalid_username {Client : Type} (env : Env Client)
    (i : IstioAttestorPlugin Client) (jwt : String) (kubeClient : Client)
    (tokenReview : TokenReview) (hc : i.kubeClient = some kubeClient)
    (hr : env.Create kubeClient (reviewRequest jwt) = .ok tokenReview)
    (he : tokenReview.Status.Error = "")
    (ha : tokenReview.Status.Authenticated = true)
    (hg : "system:serviceaccounts" ∈ tokenReview.Status.User.Groups)
    (hu : (Split tokenReview.Status.User.Username ':').length ≠ 4) :
    (validateJWT env i jwt).ret
      = .error (pluginErr.New env.Quote "token review returned an invalid username field" []) ∧
    (pluginErr.New env.Quote "token review returned an invalid username field" []).message
      = "istio: token review returned an invalid username field" ∧
    ∀ claims, (validateJWT env i jwt).ret ≠ .ok claims := by
  have hret : (validateJWT env i jwt).ret
      = .error (pluginErr.New env.Quote "token review returned an invalid username field" []) := by
    rw [validateJWT_ret env i jwt kubeClient tokenReview hc hr]
    simp [checkReview, he, ha, (groupLoop_iff_mem _).2 hg, hu]
  refine ⟨hret, rfl, ?_⟩
  intro claims hok
  rw [hret] at hok
  cases hok

theorem validateJWT_invalid_username_witness :
    (Split "" ':').length = 1 ∧
    (Split "system:serviceaccount:payments:checkout-sa:extra" ':').length = 5 ∧
    (validateJWT (statusEnv (exampleStatus "system:serviceaccount:payments:checkout-sa:extra")
        ⟨"", ""⟩) configured "tok").ret
      = .error (.classed pluginErr "token review returned an invalid username field") :=
  ⟨by decide, by decide,
    (validateJWT_invalid_username _ configured "tok" () _ rfl rfl rfl rfl (by decide)
      (by decide)).1⟩

/-- C5: for every review with an empty status error that is authenticated,
has the service account group and whose username is `a:b:ns:sa` with four
segments free of `:`, `validateJWT` returns the claims with namespace `ns`
and service account `sa`, whatever `a` and `b` are. -/
theorem validateJWT_claims {Client : Type} (env : Env Client)
    (i : IstioAttestorPlugin Client) (jwt : String) (kubeClient : Client)
    (tokenReview : TokenReview) (a b ns sa : String)
    (hc : i.kubeClient = some kubeClient)
    (hr : env.Create kubeClient (reviewRequest jwt) = .ok tokenReview)
    (he : tokenReview.Status.Error = "")
    (ha : tokenReview.Status.Authenticated = true)
    (hg : "system:serviceaccounts" ∈ tokenReview.Status.User.Groups)
    (hu : tokenReview.Status.User.Username = a ++ ":" ++ b ++ ":" ++ ns ++ ":" ++ sa)
    (h1 : ':' ∉ a.data) (h2 : ':' ∉ b.data) (h3 : ':' ∉ ns.data) (h4 : ':' ∉ sa.data) :
    (validateJWT env i jwt).ret = .ok { Namespace := ns, ServiceAccount := sa } := by
  rw [validateJWT_ret env i jwt kubeClient tokenReview hc hr]
  have hs : Split tokenReview.Status.User.Username ':' = [a, b, ns, sa] := by
    rw [hu]
    exact Split_join4 ':' a b ns sa h1 h2 h3 h4
  simp [checkReview, he, ha, (groupLoop_iff_mem _).2 hg, hs]

theorem validateJWT_claims_witness :
    (validateJWT (statusEnv (exampleStatus "system:serviceaccount:payments:checkout-sa") ⟨"", ""⟩)
        configured "tok").ret
      = .ok { Namespace := "payments", ServiceAccount := "checkout-sa" } ∧
    (validateJWT (statusEnv (exampleStatus "other:kind:payments:checkout-sa") ⟨"", ""⟩)
        configured "tok").ret
      = .ok { Namespace := "payments", ServiceAccount := "checkout-sa" } :=
  ⟨validateJWT_claims _ configured "tok" () _ "system" "serviceaccount" "payments" "checkout-sa"
      rfl rfl rfl rfl (by decide) (by decide) (by decide) (by decide) (by decide) (by decide),
    validateJWT_claims _ configured "tok" () _ "other" "kind" "payments" "checkout-sa"
      rfl rfl rfl rfl (by decide) (by decide) (by decide) (by decide) (by decide) (by decide)⟩

/-- C6, counterexample: the username `system:serviceaccount::` has four
segments, the last two empty; `validateJWT` succeeds and returns claims whose
namespace and service account are both empty. -/
theorem validateJWT_empty_claims :
    (validateJWT (statusEnv (exampleStatus "system:serviceaccount::") ⟨"", ""⟩)
        configured "tok").ret = .ok { Namespace := "", ServiceAccount := "" } := by
  decide

/-- C6, amended: the claims returned by a successful `validateJWT` hold the
third and fourth segments of the username of the review; both fields are
non-empty whenever these two segments are non-empty. -/
theorem validateJWT_claims_nonempty {Client : Type} (env : Env Client)
    (i : IstioAttestorPlugin Client) (jwt : String) (kubeClient : Client)
    (tokenReview : TokenReview) (claims : JWTClaims)
    (hc : i.kubeClient = some kubeClient)
    (hr : env.Create kubeClient (reviewRequest jwt) = .ok tokenReview)
    (h : (validateJWT env i jwt).ret = .ok claims)
    (h3 : (Split tokenReview.Status.User.Username ':').getD 2 "" ≠ "")
    (h4 : (Split tokenReview.Status.User.Username ':').getD 3 "" ≠ "") :
    claims.Namespace = (Split tokenReview.Status.User.Username ':').getD 2 "" ∧
    claims.ServiceAccount = (Split tokenReview.Status.User.Username ':').getD 3 "" ∧
    claims.Namespace ≠ "" ∧ claims.ServiceAccount ≠ "" := by
  rw [validateJWT_ret env i jwt kubeClient tokenReview hc hr] at h
  dsimp only [checkReview] at h
  split_ifs at h
  have hclaims := (Except.ok.inj h).symm
  subst hclaims
  exact ⟨rfl, rfl, h3, h4⟩

theorem validateJWT_claims_nonempty_witness :
    ({ Namespace := "payments", ServiceAccount := "checkout-sa" } : JWTClaims).Namespace
      = (Split "system:serviceaccount:payments:checkout-sa" ':').getD 2 "" ∧
    ({ Namespace := "payments", ServiceAccount := "checkout-sa" } : JWTClaims).ServiceAccount
      = (Split "system:serviceaccount:payments:checkout-sa" ':').getD 3 "" ∧
    ({ Namespace := "payments", ServiceAccount := "checkout-sa" } : JWTClaims).Namespace ≠ "" ∧
    ({ Namespace := "payments", ServiceAccount := "checkout-sa" } : JWTClaims).ServiceAccount ≠ "" :=
  validateJWT_claims_nonempty
    (statusEnv (exampleStatus "system:serviceaccount:payments:checkout-sa") ⟨"", ""⟩)
    configured "tok" () _ _ rfl rfl (by decide) (by decide) (by decide)

/-! ## The attestation handler -/

/-- The identity template filled with three strings is the concatenation of
its fixed parts and the three strings, unchanged. -/
theorem Sprintf_spiffeIdTemplate (Quote : String → String) (td ns sa : String) :
    Sprintf Quote spiffeIdTemplate [Arg.str td, Arg.str ns, Arg.str sa]
      = "spiffe://" ++ td ++ "/ns/" ++ ns ++ "/sa/" ++ sa := by
  apply String.ext
  simp [Sprintf, spiffeIdTemplate, doPrintf, printArg, extraArgs, Arg.str, String.data_append,
    Char.toString, String.singleton]

theorem Sprintf_unexpected_type (Quote : String → String) (ty : String) :
    Sprintf Quote "unexpected attestation data type %q" [Arg.str ty]
      = "unexpected attestation data type " ++ Quote ty := by
  apply String.ext
  simp [Sprintf, doPrintf, printArg, extraArgs, Arg.str, String.data_append, Char.toString,
    String.singleton]

theorem sentMessages_validateJWT {Client : Type} (env : Env Client)
    (i : IstioAttestorPlugin Client) (jwt : String) :
    sentMessages (validateJWT env i jwt).calls = [] := by
  unfold validateJWT
  cases getKubeClient env.Quote i with
  | error err => rfl
  | ok kubeClient =>
    dsimp only
    cases env.Create kubeClient { Spec := { Token := jwt }, Status := TokenReviewStatus.zero } with
    | error err => rfl
    | ok tokenReview => rfl

theorem sentMessages_append {Client : Type} (l1 l2 : List (Call Client)) :
    sentMessages (l1 ++ l2) = sentMessages l1 ++ sentMessages l2 := by
  induction l1 with
  | nil => rfl
  | cons c rest ih => cases c <;> simp [sentMessages, ih]

/-- C7: for every received request whose attestation data type differs from
`istio`, `Attest` returns the error made from the format
`unexpected attestation data type %q` and the observed type, whose message is
`istio: unexpected attestation data type ` followed by the quoted type; the
only call it made is the receive: the payload is not decoded, the backend is
not called and nothing is sent. -/
theorem Attest_unexpected_type {Client : Type} (env : Env Client)
    (i : IstioAttestorPlugin Client) (req : AttestRequest) (attestationData : AttestationData)
    (hrecv : env.Recv = .ok req) (hreq : req.AttestationData = some attestationData)
    (ht : attestationData.Type_ ≠ pluginName) :
    (Attest env i).ret = .returned (some (pluginErr.New env.Quote
      "unexpected attestation data type %q" [Arg.str attestationData.Type_])) ∧
    (pluginErr.New env.Quote "unexpected attestation data type %q"
      [Arg.str attestationData.Type_]).message
      = "istio: unexpected attestation data type " ++ env.Quote attestationData.Type_ ∧
    (Attest env i).calls = [.recv] := by
  refine ⟨?_, ?_, ?_⟩
  · simp [Attest, hrecv, hreq, ht]
  · have hne : "unexpected attestation data type " ++ env.Quote attestationData.Type_ ≠ "" := by
      intro e
      have := congrArg String.data e
      simp [String.data_append] at this
    simp only [Class.New, Error.message, Sprintf_unexpected_type]
    rw [if_neg (by decide), if_neg hne]
    apply String.ext
    simp [pluginErr, String.data_append]
  · simp [Attest, hrecv, hreq, ht]

theorem Attest_unexpected_type_witness :
    let env := exampleEnv (.error (.foreign "*errors.errorString" "backend down"))
      (.ok { AttestationData := some { Type_ := "k8s_sat", Data := [123, 34] } })
      (.error (.foreign "*json.SyntaxError" "unexpected end of JSON input"))
    (Attest env configured).ret
      = .returned (some (.classed pluginErr "unexpected attestation data type \"k8s_sat\"")) ∧
    (Attest env configured).calls = [.recv] :=
  have h := Attest_unexpected_type
    (exampleEnv (.error (.foreign "*errors.errorString" "backend down"))
      (.ok { AttestationData := some { Type_ := "k8s_sat", Data := [123, 34] } })
      (.error (.foreign "*json.SyntaxError" "unexpected end of JSON input")))
    configured { AttestationData := some { Type_ := "k8s_sat", Data := [123, 34] } }
    { Type_ := "k8s_sat", Data := [123, 34] } rfl rfl (by decide)
  ⟨h.1.trans (by decide), h.2.2⟩

/-- C8 (no soft failure): in every run of `Attest`, either nothing is sent,
or the token verification succeeded and exactly one message is sent, with
`Valid = true`; and whenever the receive, the type check, the decoding of
the payload or the token verification fails, `Attest` returns an error and
sends nothing. -/
theorem Attest_no_soft_failure {Client : Type} (env : Env Client)
    (i : IstioAttestorPlugin Client) :
    (sentMessages (Attest env i).calls = [] ∨
      ∃ req attestationData attestedData claim resp,
        env.Recv = .ok req ∧ req.AttestationData = some attestationData ∧
        attestationData.Type_ = pluginName ∧
        env.Unmarshal attestationData.Data = .ok attestedData ∧
        (validateJWT env i (TrimPrefix attestedData.Token "Bearer ")).ret = .ok claim ∧
        sentMessages (Attest env i).calls = [resp] ∧ resp.Valid = true ∧
        (Attest env i).ret = .returned (env.Send resp)) ∧
    (∀ err, env.Recv = .error err →
      (∃ e, (Attest env i).ret = .returned (some e)) ∧ sentMessages (Attest env i).calls = []) ∧
    (∀ req attestationData, env.Recv = .ok req → req.AttestationData = some attestationData →
      attestationData.Type_ ≠ pluginName →
      (∃ e, (Attest env i).ret = .returned (some e)) ∧ sentMessages (Attest env i).calls = []) ∧
    (∀ req attestationData err, env.Recv = .ok req →
      req.AttestationData = some attestationData → attestationData.Type_ = pluginName →
      env.Unmarshal attestationData.Data = .error err →
      (∃ e, (Attest env i).ret = .returned (some e)) ∧ sentMessages (Attest env i).calls = []) ∧
    (∀ req attestationData attestedData err, env.Recv = .ok req →
      req.AttestationData = some attestationData → attestationData.Type_ = pluginName →
      env.Unmarshal attestationData.Data = .ok attestedData →
      (validateJWT env i (TrimPrefix attestedData.Token "Bearer ")).ret = .error err →
      (∃ e, (Attest env i).ret = .returned (some e)) ∧ sentMessages (Attest env i).calls = []) := by
  have key : ∀ jwt, sentMessages (validateJWT env i jwt).calls = [] :=
    sentMessages_validateJWT env i
  refine ⟨?_, ?_, ?_, ?_, ?_⟩
  · cases hrecv : env.Recv with
    | error err => left; simp [Attest, hrecv, sentMessages]
    | ok req =>
      cases hreq : req.AttestationData with
      | none => left; simp [Attest, hrecv, hreq, sentMessages]
      | some attestationData =>
        by_cases ht : attestationData.Type_ = pluginName
        · cases hd : env.Unmarshal attestationData.Data with
          | error err => left; simp [Attest, hrecv, hreq, ht, hd, sentMessages]
          | ok attestedData =>
            cases hv : (validateJWT env i (TrimPrefix attestedData.Token "Bearer ")).ret with
            | error err =>
              left
              simp [Attest, hrecv, hreq, ht, hd, hv, sentMessages, key]
            | ok claim =>
              right
              refine ⟨req, attestationData, attestedData, claim,
                { Valid := true
                  BaseSPIFFEID := Sprintf env.Quote spiffeIdTemplate
                    [Arg.str attestedData.TrustDomain, Arg.str claim.Namespace,
                     Arg.str claim.ServiceAccount] }, rfl, hreq, ht, hd, hv, ?_, rfl, ?_⟩
              · simp [Attest, hrecv, hreq, ht, hd, hv, sentMessages, sentMessages_append, key]
              · simp [Attest, hrecv, hreq, ht, hd, hv]
        · left; simp [Attest, hrecv, hreq, ht, sentMessages]
  · intro err hrecv
    simp [Attest, hrecv, sentMessages]
  · intro req attestationData hrecv hreq ht
    simp [Attest, hrecv, hreq, ht, sentMessages]
  · intro req attestationData err hrecv hreq ht hd
    simp [Attest, hrecv, hreq, ht, hd, sentMessages]
  · intro req attestationData attestedData err hrecv hreq ht hd hv
    simp [Attest, hrecv, hreq, ht, hd, hv, sentMessages, key]

/-- C9, counterexample: stripping the prefix `Bearer ` once from
`Bearer Bearer abc.def` gives `Bearer abc.def`, stripping it twice gives
`abc.def`. -/
theorem TrimPrefix_not_idempotent :
    TrimPrefix "Bearer Bearer abc.def" "Bearer " = "Bearer abc.def" ∧
    TrimPrefix (TrimPrefix "Bearer Bearer abc.def" "Bearer ") "Bearer " = "abc.def" ∧
    TrimPrefix (TrimPrefix "Bearer Bearer abc.def" "Bearer ") "Bearer "
      ≠ TrimPrefix "Bearer Bearer abc.def" "Bearer " := by
  decide

/-- C9, amended: for every token `t`, stripping the prefix `Bearer ` twice
gives the same result as stripping it once exactly when `t` does not start
with `Bearer Bearer `. -/
theorem TrimPrefix_Bearer_twice (t : String) :
    TrimPrefix (TrimPrefix t "Bearer ") "Bearer " = TrimPrefix t "Bearer "
      ↔ HasPrefix t "Bearer Bearer " = false :=
  TrimPrefix_twice_iff t "Bearer " (by decide)

/-- C10: when the request is received, has the type `istio`, its payload
decodes to a token and a trust domain `td`, and the token verification
returns the claims `ns` and `sa`, the one message `Attest` sends has
`Valid = true` and the identity `spiffe://td/ns/ns/sa/sa`, the three strings
being copied unchanged. -/
theorem Attest_BaseSPIFFEID {Client : Type} (env : Env Client)
    (i : IstioAttestorPlugin Client) (req : AttestRequest) (attestationData : AttestationData)
    (attestedData : istioAttestedData) (claim : JWTClaims)
    (hrecv : env.Recv = .ok req) (hreq : req.AttestationData = some attestationData)
    (ht : attestationData.Type_ = pluginName)
    (hd : env.Unmarshal attestationData.Data = .ok attestedData)
    (hv : (validateJWT env i (TrimPrefix attestedData.Token "Bearer ")).ret = .ok claim) :
    sentMessages (Attest env i).calls =
      [{ Valid := true
         BaseSPIFFEID := "spiffe://" ++ attestedData.TrustDomain ++ "/ns/" ++ claim.Namespace
           ++ "/sa/" ++ claim.ServiceAccount }] := by
  simp [Attest, hrecv, hreq, ht, hd, hv, sentMessages, sentMessages_append,
    sentMessages_validateJWT, Sprintf_spiffeIdTemplate]

theorem Attest_BaseSPIFFEID_witness :
    sentMessages (Attest (statusEnv (exampleStatus "system:serviceaccount:payments:checkout-sa")
        { Token := "Bearer abc.def", TrustDomain := "example.org" }) configured).calls =
      [{ Valid := true, BaseSPIFFEID := "spiffe://example.org/ns/payments/sa/checkout-sa" }] :=
  Attest_BaseSPIFFEID
    (statusEnv (exampleStatus "system:serviceaccount:payments:checkout-sa")
      { Token := "Bearer abc.def", TrustDomain := "example.org" })
    configured { AttestationData := some { Type_ := "istio", Data := [] } }
    { Type_ := "istio", Data := [] }
    { Token := "Bearer abc.def", TrustDomain := "example.org" }
    { Namespace := "payments", ServiceAccount := "checkout-sa" }
    rfl rfl (by decide) rfl (by decide)

/-! ## The submitted token -/

theorem TrimPrefix_append (pre s : String) : TrimPrefix (pre ++ s) pre = s := by
  have h : HasPrefix (pre ++ s) pre = true := by
    rw [HasPrefix_iff, String.data_append]
    exact List.prefix_append _ _
  simp [TrimPrefix, h, String.data_append]

theorem TrimPrefix_of_not_HasPrefix (t pre : String) (h : HasPrefix t pre = false) :
    TrimPrefix t pre = t := by
  simp [TrimPrefix, h]

theorem reviewedTokens_append {Client : Type} (l1 l2 : List (Call Client)) :
    reviewedTokens (l1 ++ l2) = reviewedTokens l1 ++ reviewedTokens l2 := by
  induction l1 with
  | nil => rfl
  | cons c rest ih => cases c <;> simp [reviewedTokens, ih]

/-- A configured plugin submits exactly the token it was given, once. -/
theorem reviewedTokens_validateJWT {Client : Type} (env : Env Client)
    (i : IstioAttestorPlugin Client) (jwt : String) (kubeClient : Client)
    (hc : i.kubeClient = some kubeClient) :
    reviewedTokens (validateJWT env i jwt).calls = [jwt] := by
  unfold validateJWT getKubeClient
  simp only [hc]
  cases env.Create kubeClient { Spec := { Token := jwt }, Status := TokenReviewStatus.zero } with
  | error err => rfl
  | ok tokenReview => rfl

/-- C11 (exact prefix stripping): when a configured plugin receives an
`istio` request whose payload decodes to the token `t`, the one token
`Attest` submits to the token review is `TrimPrefix t "Bearer "`: it is `s`
when `t` is `Bearer ` followed by `s`, and `t` itself when `t` does not start
with `Bearer `. -/
theorem Attest_submitted_token {Client : Type} (env : Env Client)
    (i : IstioAttestorPlugin Client) (req : AttestRequest) (attestationData : AttestationData)
    (attestedData : istioAttestedData) (kubeClient : Client)
    (hrecv : env.Recv = .ok req) (hreq : req.AttestationData = some attestationData)
    (ht : attestationData.Type_ = pluginName)
    (hd : env.Unmarshal attestationData.Data = .ok attestedData)
    (hc : i.kubeClient = some kubeClient) :
    reviewedTokens (Attest env i).calls = [TrimPrefix attestedData.Token "Bearer "] ∧
    (∀ s, attestedData.Token = "Bearer " ++ s → reviewedTokens (Attest env i).calls = [s]) ∧
    (HasPrefix attestedData.Token "Bearer " = false →
      reviewedTokens (Attest env i).calls = [attestedData.Token]) := by
  have key := reviewedTokens_validateJWT env i (TrimPrefix attestedData.Token "Bearer ")
    kubeClient hc
  have main : reviewedTokens (Attest env i).calls
      = [TrimPrefix attestedData.Token "Bearer "] := by
    cases hv : (validateJWT env i (TrimPrefix attestedData.Token "Bearer ")).ret with
    | error err =>
      simp [Attest, hrecv, hreq, ht, hd, hv, reviewedTokens, key]
    | ok claim =>
      simp [Attest, hrecv, hreq, ht, hd, hv, reviewedTokens, reviewedTokens_append, key]
  refine ⟨main, ?_, ?_⟩
  · intro s hs
    rw [main, hs, TrimPrefix_append]
  · intro hp
    rw [main, TrimPrefix_of_not_HasPrefix _ _ hp]

theorem Attest_submitted_token_witness :
    reviewedTokens (Attest (statusEnv (exampleStatus "system:serviceaccount:payments:checkout-sa")
        { Token := "Bearer abc.def", TrustDomain := "example.org" }) configured).calls
      = ["abc.def"] ∧
    reviewedTokens (Attest (statusEnv (exampleStatus "system:serviceaccount:payments:checkout-sa")
        { Token := "abc.def", TrustDomain := "example.org" }) configured).calls
      = ["abc.def"] ∧
    reviewedTokens (Attest (statusEnv (exampleStatus "system:serviceaccount:payments:checkout-sa")
        { Token := "bearer abc.def", TrustDomain := "example.org" }) configured).calls
      = ["bearer abc.def"] :=
  ⟨(Attest_submitted_token
      (statusEnv (exampleStatus "system:serviceaccount:payments:checkout-sa")
        { Token := "Bearer abc.def", TrustDomain := "example.org" })
      configured { AttestationData := some { Type_ := "istio", Data := [] } }
      { Type_ := "istio", Data := [] } { Token := "Bearer abc.def", TrustDomain := "example.org" }
      () rfl rfl (by decide) rfl rfl).2.1 "abc.def" (by decide),
   (Attest_submitted_token
      (statusEnv (exampleStatus "system:serviceaccount:payments:checkout-sa")
        { Token := "abc.def", TrustDomain := "example.org" })
      configured { AttestationData := some { Type_ := "istio", Data := [] } }
      { Type_ := "istio", Data := [] } { Token := "abc.def", TrustDomain := "example.org" }
      () rfl rfl (by decide) rfl rfl).2.2 (by decide),
   (Attest_submitted_token
      (statusEnv (exampleStatus "system:serviceaccount:payments:checkout-sa")
        { Token := "bearer abc.def", TrustDomain := "example.org" })
      configured { AttestationData := some { Type_ := "istio", Data := [] } }
      { Type_ := "istio", Data := [] } { Token := "bearer abc.def", TrustDomain := "example.org" }
      () rfl rfl (by decide) rfl rfl).2.2 (by decide)⟩

/-! ## The rejection paths of the token verifier -/

/-- The message of an error of the plugin class with a non-empty text. -/
theorem message_pluginErr (text : String) (h : text ≠ "") :
    (Error.classed pluginErr text).message = "istio: " ++ text := by
  simp only [Error.message]
  rw [if_neg (by decide), if_neg h]
  apply String.ext
  simp [pluginErr, String.data_append]

theorem append_ne_empty (a b : String) (h : a ≠ "") : a ++ b ≠ "" := by
  intro e
  apply h
  apply String.ext
  have e1 := congrArg String.data e
  simp only [String.data_append] at e1
  have e2 : a.data ++ b.data = [] := e1
  simpa using (List.append_eq_nil.1 e2).1

theorem Sprintf_status_error (Quote : String → String) (msg : String) :
    Sprintf Quote "service account authentication status error: %v" [Arg.str msg]
      = "service account authentication status error: " ++ msg := by
  apply String.ext
  simp [Sprintf, doPrintf, printArg, extraArgs, Arg.str, String.data_append, Char.toString,
    String.singleton]

theorem Sprintf_call_failed (Quote : String → String) (err : Error) :
    Sprintf Quote "could not get a token review response: %v" [Arg.err err]
      = "could not get a token review response: " ++ err.message := by
  apply String.ext
  simp [Sprintf, doPrintf, printArg, extraArgs, Arg.err, String.data_append, Char.toString,
    String.singleton]

/-- C12: for every review whose status error is not empty, whatever its
`Authenticated` flag, groups and username are, `validateJWT` fails with the
error made from `service account authentication status error: %v` and the
status error, whose message is
`istio: service account authentication status error: ` followed by the
status error. -/
theorem validateJWT_status_error {Client : Type} (env : Env Client)
    (i : IstioAttestorPlugin Client) (jwt : String) (kubeClient : Client)
    (tokenReview : TokenReview) (hc : i.kubeClient = some kubeClient)
    (hr : env.Create kubeClient (reviewRequest jwt) = .ok tokenReview)
    (he : tokenReview.Status.Error ≠ "") :
    (validateJWT env i jwt).ret
      = .error (pluginErr.New env.Quote "service account authentication status error: %v"
          [Arg.str tokenReview.Status.Error]) ∧
    (pluginErr.New env.Quote "service account authentication status error: %v"
        [Arg.str tokenReview.Status.Error]).message
      = "istio: service account authentication status error: " ++ tokenReview.Status.Error := by
  constructor
  · rw [validateJWT_ret env i jwt kubeClient tokenReview hc hr]
    simp [checkReview, he]
  · simp only [Class.New, Sprintf_status_error]
    rw [message_pluginErr _ (append_ne_empty _ _ (by decide))]
    apply String.ext
    simp [String.data_append]

theorem validateJWT_status_error_witness :
    let status : TokenReviewStatus :=
      { Authenticated := true
        User := { Username := "system:serviceaccount:payments:checkout-sa"
                  Groups := ["system:serviceaccounts"] }
        Error := "token expired" }
    (validateJWT (statusEnv status ⟨"", ""⟩) configured "tok").ret
      = .error (.classed pluginErr "service account authentication status error: token expired") :=
  (validateJWT_status_error
    (statusEnv { Authenticated := true
                 User := { Username := "system:serviceaccount:payments:checkout-sa"
                           Groups := ["system:serviceaccounts"] }
                 Error := "token expired" } ⟨"", ""⟩)
    configured "tok" () _ rfl rfl (by decide)).1.trans (by decide)

/-- C13: in the state made by `New`, `getKubeClient` fails with the error
`istio: no Kubernetes client is configured`, and for every token
`validateJWT` fails with that same error and makes no call to the backend. -/
theorem validateJWT_New {Client : Type} (env : Env Client) (jwt : String) :
    getKubeClient env.Quote (New : IstioAttestorPlugin Client)
      = .error (pluginErr.New env.Quote "no Kubernetes client is configured" []) ∧
    (pluginErr.New env.Quote "no Kubernetes client is configured" []).message
      = "istio: no Kubernetes client is configured" ∧
    (validateJWT env (New : IstioAttestorPlugin Client) jwt).ret
      = .error (pluginErr.New env.Quote "no Kubernetes client is configured" []) ∧
    (validateJWT env (New : IstioAttestorPlugin Client) jwt).calls = [] :=
  ⟨rfl, rfl, rfl, rfl⟩

/-! ## Configuration -/

theorem configureAll_append {Config Client : Type}
    (steps : List (ConfigEnv Config Client × ConfigureRequest))
    (cenv : ConfigEnv Config Client) (req : ConfigureRequest) (i : IstioAttestorPlugin Client) :
    configureAll (steps ++ [(cenv, req)]) i = (Configure cenv (configureAll steps i) req).plugin := by
  induction steps generalizing i with
  | nil => rfl
  | cons step rest ih =>
    obtain ⟨cenv1, req1⟩ := step
    simp [configureAll, ih]

/-- What a successful `Configure` did: it decoded the text, got a
configuration from `getConfig`, built a client from it and stored it. -/
theorem Configure_ok {Config Client : Type} (cenv : ConfigEnv Config Client)
    (i : IstioAttestorPlugin Client) (req : ConfigureRequest) (resp : ConfigureResponse)
    (h : (Configure cenv i req).ret = .ok resp) :
    ∃ cfg config client,
      cenv.Decode req.Configuration = .ok cfg ∧
      (getConfig cenv cfg.ConfigPath).ret = .ok config ∧
      cenv.NewForConfig config = .ok client ∧
      (Configure cenv i req).plugin.kubeClient = some client := by
  unfold Configure at h ⊢
  cases hd : cenv.Decode req.Configuration with
  | error err => simp [hd] at h
  | ok cfg =>
    simp only [hd] at h ⊢
    unfold newKubeClient at h ⊢
    cases hg : (getConfig cenv cfg.ConfigPath).ret with
    | error err => simp [hg] at h
    | ok config =>
      simp only [hg] at h ⊢
      cases hn : cenv.NewForConfig config with
      | error err => simp [hn] at h
      | ok client =>
        exact ⟨cfg, config, client, rfl, hg, hn, by simp [hn]⟩

/-- C14 (last writer wins): after any sequence of `Configure` calls followed
by a `Configure` call that succeeds, `getKubeClient` returns the client that
this last call built: the client `NewForConfig` made from the configuration
that `getConfig` returned for the decoded path. -/
theorem Configure_last_writer_wins {Config Client : Type} (i : IstioAttestorPlugin Client)
    (steps : List (ConfigEnv Config Client × ConfigureRequest))
    (cenv : ConfigEnv Config Client) (req : ConfigureRequest) (resp : ConfigureResponse)
    (h : (Configure cenv (configureAll steps i) req).ret = .ok resp) :
    ∃ cfg config client,
      cenv.Decode req.Configuration = .ok cfg ∧
      (getConfig cenv cfg.ConfigPath).ret = .ok config ∧
      cenv.NewForConfig config = .ok client ∧
      ∀ Quote, getKubeClient Quote (configureAll (steps ++ [(cenv, req)]) i) = .ok client := by
  obtain ⟨cfg, config, client, hd, hg, hn, hk⟩ := Configure_ok cenv _ req resp h
  refine ⟨cfg, config, client, hd, hg, hn, ?_⟩
  intro Quote
  rw [configureAll_append]
  simp [getKubeClient, hk]

theorem Configure_last_writer_wins_witness :
    getKubeClient id (configureAll [(exampleConfigEnv, ⟨""⟩)] New) = .ok "client of in-cluster" ∧
    getKubeClient id (configureAll
        ([(exampleConfigEnv, ⟨""⟩)] ++ [(exampleConfigEnv, ⟨"/etc/kubeconfig"⟩)]) New)
      = .ok "client of /etc/kubeconfig" ∧
    ∃ cfg config client,
      exampleConfigEnv.Decode "/etc/kubeconfig" = .ok cfg ∧
      (getConfig exampleConfigEnv cfg.ConfigPath).ret = .ok config ∧
      exampleConfigEnv.NewForConfig config = .ok client ∧
      ∀ Quote, getKubeClient Quote (configureAll
        ([(exampleConfigEnv, ⟨""⟩)] ++ [(exampleConfigEnv, ⟨"/etc/kubeconfig"⟩)]) New)
          = .ok client :=
  ⟨by decide, by decide,
    Configure_last_writer_wins New [(exampleConfigEnv, ⟨""⟩)] exampleConfigEnv
      ⟨"/etc/kubeconfig"⟩ ⟨[]⟩ (by decide)⟩

/-- C15 (atomic on failure): whenever `Configure` returns an error, the
plugin state it leaves is the state it started from, so `getKubeClient`
answers as before the call; the error is returned when the configuration
text cannot be decoded and when the client cannot be built. -/
theorem Configure_error_keeps_client {Config Client : Type} (cenv : ConfigEnv Config Client)
    (i : IstioAttestorPlugin Client) (req : ConfigureRequest) :
    (∀ err, (Configure cenv i req).ret = .error err →
      (Configure cenv i req).plugin = i ∧
      ∀ Quote, getKubeClient Quote (Configure cenv i req).plugin = getKubeClient Quote i) ∧
    (∀ err, cenv.Decode req.Configuration = .error err →
      ∃ e, (Configure cenv i req).ret = .error e) ∧
    (∀ cfg err, cenv.Decode req.Configuration = .ok cfg →
      (newKubeClient cenv cfg.ConfigPath).ret = .error err →
      ∃ e, (Configure cenv i req).ret = .error e) := by
  refine ⟨?_, ?_, ?_⟩
  · intro err h
    have hp : (Configure cenv i req).plugin = i := by
      unfold Configure at h ⊢
      cases hd : cenv.Decode req.Configuration with
      | error e => simp
      | ok cfg =>
        simp only [hd] at h ⊢
        cases hn : (newKubeClient cenv cfg.ConfigPath).ret with
        | error e => simp
        | ok client => simp [hn] at h
    exact ⟨hp, fun Quote => by rw [hp]⟩
  · intro err hd
    simp [Configure, hd]
  · intro cfg err hd hn
    simp [Configure, hd, hn]

theorem Configure_error_keeps_client_witness :
    (∃ e, (Configure failingConfigEnv { kubeClient := some "old client" } ⟨"/missing"⟩).ret
      = .error e) ∧
    (Configure failingConfigEnv { kubeClient := some "old client" } ⟨"/missing"⟩).plugin
      = { kubeClient := some "old client" } ∧
    getKubeClient id
        (Configure failingConfigEnv { kubeClient := some "old client" } ⟨"/missing"⟩).plugin
      = .ok "old client" :=
  have h := (Configure_error_keeps_client failingConfigEnv { kubeClient := some "old client" }
    ⟨"/missing"⟩).1
      (.classed pluginErr "error creating kubeClient: istio: no such file ") (by decide)
  ⟨⟨_, (by decide : (Configure failingConfigEnv { kubeClient := some "old client" }
      ⟨"/missing"⟩).ret
        = .error (.classed pluginErr "error creating kubeClient: istio: no such file "))⟩,
    h.1, (h.2 id).trans (by decide)⟩

/-- C16 (strict branch on the path): `getConfig` calls the in-cluster source
exactly when the path is empty; for a non-empty path its only call is the
load from that path and its result, a failure included, is the result of
that load; `newKubeClient` then returns the wrapped failure of the load
without calling the in-cluster source. -/
theorem getConfig_strict_branch {Config Client : Type} (cenv : ConfigEnv Config Client)
    (configPath : String) :
    (ConfigCall.inClusterConfig ∈ (getConfig cenv configPath).calls ↔ configPath = "") ∧
    (configPath = "" →
      getConfig cenv configPath = ⟨[.inClusterConfig], cenv.InClusterConfig⟩) ∧
    (configPath ≠ "" →
      getConfig cenv configPath
        = ⟨[.buildConfigFromFlags "" configPath], cenv.BuildConfigFromFlags "" configPath⟩) ∧
    (configPath ≠ "" → ∀ err, cenv.BuildConfigFromFlags "" configPath = .error err →
      newKubeClient cenv configPath
        = ⟨[.buildConfigFromFlags "" configPath], .error (pluginErr.Wrap err)⟩) := by
  by_cases hp : configPath = ""
  · subst hp
    simp [getConfig]
  · refine ⟨?_, fun h => absurd h hp, fun _ => by simp [getConfig, hp], ?_⟩
    · simp [getConfig, hp]
    · intro _ err he
      simp [newKubeClient, getConfig, hp, he]

theorem getConfig_strict_branch_witness :
    getConfig failingConfigEnv "" = ⟨[.inClusterConfig], .ok "in-cluster"⟩ ∧
    getConfig failingConfigEnv "/missing"
      = ⟨[.buildConfigFromFlags "" "/missing"], .error (.foreign "*os.PathError" "no such file")⟩ ∧
    newKubeClient failingConfigEnv "/missing"
      = ⟨[.buildConfigFromFlags "" "/missing"], .error (.classed pluginErr "no such file")⟩ :=
  ⟨(getConfig_strict_branch failingConfigEnv "").2.1 rfl,
    (getConfig_strict_branch failingConfigEnv "/missing").2.2.1 (by decide),
    (getConfig_strict_branch failingConfigEnv "/missing").2.2.2 (by decide)
      (.foreign "*os.PathError" "no such file") rfl⟩

/-! ## Distinct rejection errors -/

theorem classify_call_failed (Quote : String → String) (err : Error) :
    classify (pluginErr.New Quote "could not get a token review response: %v"
      [Arg.err err]).message = .callFailed := by
  simp only [Class.New, Sprintf_call_failed]
  rw [message_pluginErr _ (append_ne_empty _ _ (by decide))]
  simp [classify, String.data_append]

theorem classify_status_error (Quote : String → String) (msg : String) :
    classify (pluginErr.New Quote "service account authentication status error: %v"
      [Arg.str msg]).message = .statusError := by
  simp only [Class.New, Sprintf_status_error]
  rw [message_pluginErr _ (append_ne_empty _ _ (by decide))]
  simp [classify, String.data_append]

/-- The message of a rejection tells the rejection path. -/
theorem rejection_of_error {Client : Type} (env : Env Client) (i : IstioAttestorPlugin Client)
    (jwt : String) (e : Error) (h : (validateJWT env i jwt).ret = .error e) :
    rejection env i jwt = some (classify e.message) := by
  unfold validateJWT getKubeClient at h
  unfold rejection
  cases hk : i.kubeClient with
  | none =>
    simp only [hk] at h
    have he := (Except.error.inj h).symm
    subst he
    rfl
  | some kubeClient =>
    simp only [hk] at h ⊢
    cases hr : env.Create kubeClient
        { Spec := { Token := jwt }, Status := TokenReviewStatus.zero } with
    | error err =>
      simp only [hr] at h ⊢
      have he := (Except.error.inj h).symm
      subst he
      rw [classify_call_failed]
    | ok tokenReview =>
      simp only [hr] at h ⊢
      dsimp only [checkReview] at h
      by_cases h1 : tokenReview.Status.Error ≠ ""
      · rw [if_pos h1] at h ⊢
        have he := (Except.error.inj h).symm
        subst he
        rw [classify_status_error]
      · rw [if_neg h1] at h ⊢
        by_cases h2 : ¬ tokenReview.Status.Authenticated
        · rw [if_pos h2] at h ⊢
          have he := (Except.error.inj h).symm
          subst he
          rfl
        · rw [if_neg h2] at h ⊢
          by_cases h3 : ¬ groupLoop tokenReview.Status.User.Groups false
          · rw [if_pos h3] at h ⊢
            have he := (Except.error.inj h).symm
            subst he
            rfl
          · rw [if_neg h3] at h ⊢
            by_cases h4 : (Split tokenReview.Status.User.Username ':').length ≠ 4
            · rw [if_pos h4] at h ⊢
              have he := (Except.error.inj h).symm
              subst he
              rfl
            · rw [if_neg h4] at h
              cases h

/-- C17: two failures of `validateJWT` that arise from different rejection
paths (not configured, backend call failed, status error, not
authenticated, not a service account, invalid username) are different
errors with different messages, whatever backend error or status error
string they carry. -/
theorem validateJWT_rejections_distinct {Client1 Client2 : Type}
    (env1 : Env Client1) (i1 : IstioAttestorPlugin Client1) (jwt1 : String)
    (env2 : Env Client2) (i2 : IstioAttestorPlugin Client2) (jwt2 : String)
    (e1 e2 : Error)
    (h1 : (validateJWT env1 i1 jwt1).ret = .error e1)
    (h2 : (validateJWT env2 i2 jwt2).ret = .error e2)
    (hp : rejection env1 i1 jwt1 ≠ rejection env2 i2 jwt2) :
    e1 ≠ e2 ∧ e1.message ≠ e2.message := by
  have r1 := rejection_of_error env1 i1 jwt1 e1 h1
  have r2 := rejection_of_error env2 i2 jwt2 e2 h2
  have hm : e1.message ≠ e2.message := by
    intro e
    apply hp
    rw [r1, r2, e]
  exact ⟨fun e => hm (by rw [e]), hm⟩

theorem validateJWT_rejections_distinct_witness :
    let status1 : TokenReviewStatus :=
      { Authenticated := false, User := { Username := "", Groups := [] },
        Error := "token is not authenticated" }
    let status2 : TokenReviewStatus :=
      { Authenticated := false, User := { Username := "", Groups := [] }, Error := "" }
    rejection (statusEnv status1 ⟨"", ""⟩) configured "tok" = some .statusError ∧
    rejection (statusEnv status2 ⟨"", ""⟩) configured "tok" = some .notAuthenticated ∧
    (Error.classed pluginErr
        "service account authentication status error: token is not authenticated")
      ≠ Error.classed pluginErr "token is not authenticated" ∧
    (Error.classed pluginErr
        "service account authentication status error: token is not authenticated").message
      ≠ (Error.classed pluginErr "token is not authenticated").message :=
  ⟨by decide, by decide,
    validateJWT_rejections_distinct
      (statusEnv { Authenticated := false, User := { Username := "", Groups := [] },
                   Error := "token is not authenticated" } ⟨"", ""⟩) configured "tok"
      (statusEnv { Authenticated := false, User := { Username := "", Groups := [] },
                   Error := "" } ⟨"", ""⟩) configured "tok"
      (.classed pluginErr
        "service account authentication status error: token is not authenticated")
      (.classed pluginErr "token is not authenticated") (by decide) (by decide) (by decide)⟩

/-! ## Shape of the username and of the identity -/

/-- A split with one segment: the text has no separator. -/
theorem genSplit_single (sep : Char) (l cur : List Char) (x : String)
    (h : genSplit sep l cur = [x]) : sep ∉ l ∧ x = String.mk (cur.reverse ++ l) := by
  induction l generalizing cur with
  | nil =>
    simp only [genSplit, List.cons.injEq, and_true] at h
    simp [← h]
  | cons c rest ih =>
    by_cases hc : c = sep
    · have hlen := congrArg List.length h
      simp [genSplit, hc, genSplit_length] at hlen
    · simp only [genSplit, hc, if_false] at h
      obtain ⟨h1, h2⟩ := ih (c :: cur) h
      refine ⟨?_, ?_⟩
      · intro hm
        rcases List.mem_cons.1 hm with e | e
        · exact hc e.symm
        · exact h1 e
      · simp [h2]

/-- A split with at least two segments: the first segment is the text before
the first separator, the other segments are the split of the text after it. -/
theorem genSplit_cons (sep : Char) (l cur : List Char) (x y : String) (ys : List String)
    (h : genSplit sep l cur = x :: y :: ys) :
    ∃ l1 l2, l = l1 ++ sep :: l2 ∧ sep ∉ l1 ∧ x = String.mk (cur.reverse ++ l1) ∧
      genSplit sep l2 [] = y :: ys := by
  induction l generalizing cur with
  | nil => simp [genSplit] at h
  | cons c rest ih =>
    by_cases hc : c = sep
    · simp only [genSplit, hc, if_true, List.cons.injEq] at h
      exact ⟨[], rest, by simp [hc], by simp, by simp [← h.1], h.2⟩
    · simp only [genSplit, hc, if_false] at h
      obtain ⟨l1, l2, e, h1, h2, h3⟩ := ih (c :: cur) h
      refine ⟨c :: l1, l2, by simp [e], ?_, by simp [h2], h3⟩
      intro hm
      rcases List.mem_cons.1 hm with e1 | e1
      · exact hc e1.symm
      · exact h1 e1

/-- A text that splits into four segments is the four segments joined by the
separator, and no segment holds the separator. -/
theorem Split_four (s : String) (sep : Char) (a b c d : String)
    (h : Split s sep = [a, b, c, d]) :
    sep ∉ a.data ∧ sep ∉ b.data ∧ sep ∉ c.data ∧ sep ∉ d.data ∧
    s = a ++ sep.toString ++ b ++ sep.toString ++ c ++ sep.toString ++ d := by
  unfold Split at h
  obtain ⟨la, r1, e1, ha, xa, h1⟩ := genSplit_cons sep _ _ _ _ _ h
  obtain ⟨lb, r2, e2, hb, xb, h2⟩ := genSplit_cons sep _ _ _ _ _ h1
  obtain ⟨lc, r3, e3, hc, xc, h3⟩ := genSplit_cons sep _ _ _ _ _ h2
  obtain ⟨hd, xd⟩ := genSplit_single sep _ _ _ h3
  subst xa xb xc xd
  refine ⟨by simpa using ha, by simpa using hb, by simpa using hc, by simpa using hd, ?_⟩
  apply String.ext
  simp [String.data_append, Char.toString, String.singleton, e1, e2, e3]

theorem checkReview_ok (Quote : String → String) (tokenReview : TokenReview)
    (claims : JWTClaims) (h : checkReview Quote tokenReview = .ok claims) :
    ∃ a b, Split tokenReview.Status.User.Username ':'
      = [a, b, claims.Namespace, claims.ServiceAccount] := by
  dsimp only [checkReview] at h
  split_ifs at h with h1 h2 h3 h4
  have hlen : (Split tokenReview.Status.User.Username ':').length = 4 := by simpa using h4
  have hclaims := (Except.ok.inj h).symm
  rw [hclaims]
  exact ⟨_, _, list_length_four _ "" hlen⟩

/-- C19: whenever `validateJWT` succeeds, the returned namespace and service
account hold no `:`, and the username of the review is
`a:b:Namespace:ServiceAccount` for two strings `a` and `b` that hold no `:`;
the username has exactly three colons. -/
theorem validateJWT_username_shape {Client : Type} (env : Env Client)
    (i : IstioAttestorPlugin Client) (jwt : String) (kubeClient : Client)
    (tokenReview : TokenReview) (claims : JWTClaims)
    (hc : i.kubeClient = some kubeClient)
    (hr : env.Create kubeClient (reviewRequest jwt) = .ok tokenReview)
    (h : (validateJWT env i jwt).ret = .ok claims) :
    ':' ∉ claims.Namespace.data ∧ ':' ∉ claims.ServiceAccount.data ∧
    tokenReview.Status.User.Username.data.count ':' = 3 ∧
    ∃ a b, ':' ∉ a.data ∧ ':' ∉ b.data ∧
      tokenReview.Status.User.Username
        = a ++ ":" ++ b ++ ":" ++ claims.Namespace ++ ":" ++ claims.ServiceAccount := by
  rw [validateJWT_ret env i jwt kubeClient tokenReview hc hr] at h
  obtain ⟨a, b, hs⟩ := checkReview_ok env.Quote tokenReview claims h
  obtain ⟨ha, hb, hn, hsa, e⟩ := Split_four _ ':' a b _ _ hs
  have hcount : tokenReview.Status.User.Username.data.count ':' = 3 := by
    have hl := Split_length tokenReview.Status.User.Username ':'
    rw [hs] at hl
    simp at hl
    omega
  exact ⟨hn, hsa, hcount, a, b, ha, hb, e⟩

theorem validateJWT_username_shape_witness :
    ':' ∉ "payments".data ∧ ':' ∉ "checkout-sa".data ∧
    "system:serviceaccount:payments:checkout-sa".data.count ':' = 3 ∧
    ∃ a b, ':' ∉ a.data ∧ ':' ∉ b.data ∧
      "system:serviceaccount:payments:checkout-sa"
        = a ++ ":" ++ b ++ ":" ++ "payments" ++ ":" ++ "checkout-sa" :=
  validateJWT_username_shape
    (statusEnv (exampleStatus "system:serviceaccount:payments:checkout-sa") ⟨"", ""⟩)
    configured "tok" () _ { Namespace := "payments", ServiceAccount := "checkout-sa" }
    rfl rfl (by decide)

/-- Two texts that agree after a first separator agree before and after it. -/
theorem append_sep_inj {α : Type} (sep : α) (a a1 x x1 : List α)
    (ha : sep ∉ a) (ha1 : sep ∉ a1) (h : a ++ sep :: x = a1 ++ sep :: x1) :
    a = a1 ∧ x = x1 := by
  induction a generalizing a1 with
  | nil =>
    cases a1 with
    | nil => simpa using h
    | cons c r =>
      simp only [List.nil_append, List.cons_append, List.cons.injEq] at h
      exact absurd (by simp [h.1]) ha1
  | cons c r ih =>
    cases a1 with
    | nil =>
      simp only [List.nil_append, List.cons_append, List.cons.injEq] at h
      exact absurd (by simp [h.1]) ha
    | cons c1 r1 =>
      simp only [List.cons_append, List.cons.injEq] at h
      obtain ⟨e1, e2⟩ := ih r1 (fun m => ha (by simp [m])) (fun m => ha1 (by simp [m])) h.2
      exact ⟨by rw [h.1, e1], e2⟩

/-- C20: the identity format is unambiguous: two triples of trust domain,
namespace and service account, whose trust domains and namespaces hold no
`/`, that format through the identity template to the same string are equal
component by component (the service account names need no condition). -/
theorem spiffeId_injective (Quote : String → String) (td ns sa td1 ns1 sa1 : String)
    (htd : '/' ∉ td.data) (hns : '/' ∉ ns.data)
    (htd1 : '/' ∉ td1.data) (hns1 : '/' ∉ ns1.data)
    (h : Sprintf Quote spiffeIdTemplate [Arg.str td, Arg.str ns, Arg.str sa]
      = Sprintf Quote spiffeIdTemplate [Arg.str td1, Arg.str ns1, Arg.str sa1]) :
    td = td1 ∧ ns = ns1 ∧ sa = sa1 := by
  rw [Sprintf_spiffeIdTemplate, Sprintf_spiffeIdTemplate] at h
  have hd := congrArg String.data h
  simp only [String.data_append] at hd
  have hd1 : td.data ++ '/' :: ('n' :: 's' :: '/' :: (ns.data ++ '/' :: ('s' :: 'a' :: '/' :: sa.data)))
      = td1.data ++ '/' :: ('n' :: 's' :: '/' :: (ns1.data ++ '/' :: ('s' :: 'a' :: '/' :: sa1.data))) := by
    simpa using hd
  obtain ⟨e1, r1⟩ := append_sep_inj '/' _ _ _ _ htd htd1 hd1
  simp only [List.cons.injEq, true_and] at r1
  obtain ⟨e2, r2⟩ := append_sep_inj '/' _ _ _ _ hns hns1 r1
  simp only [List.cons.injEq, true_and] at r2
  exact ⟨String.ext e1, String.ext e2, String.ext r2⟩

theorem spiffeId_injective_witness :
    Sprintf id spiffeIdTemplate [Arg.str "example.org", Arg.str "payments", Arg.str "checkout-sa"]
      = "spiffe://example.org/ns/payments/sa/checkout-sa" ∧
    ("example.org" = "example.org" ∧ "payments" = "payments" ∧ "checkout-sa" = "checkout-sa") :=
  ⟨by decide, spiffeId_injective id "example.org" "payments" "checkout-sa"
    "example.org" "payments" "checkout-sa" (by decide) (by decide) (by decide) (by decide) rfl⟩

end IstioAttestor
